import Mathlib

/-!
Shallow embedding of `ShellOperationRunnerFactory.ts`
(`src/apps/rush-lib/src/logic/operations/ShellOperationRunnerFactory.ts`)
from the rushstack repository, together with theorems settling the frozen
claims about it.

TypeScript is translated as follows: `string` becomes `String`;
`string | undefined` becomes `Option String`; the per-phase memoization
`Map` becomes an association list threaded through state-passing; a
`throw` becomes `Except.error`; the ambient `process.platform` becomes an
explicit `platform : String` argument.  Collaborator objects that the
factory merely forwards (rush configuration, build-cache configuration,
command-line configuration, change analyzer) are opaque to the inspected
code, so they are represented by opaque identifiers (`Nat`).
-/

/-- A value stored under a key of the `scripts` section of a project's
`package.json`: either explicitly `null` or a string.  An absent key is
represented by the lookup returning `none`. -/
inductive ScriptEntryValue where
  | nullValue : ScriptEntryValue
  | script : String → ScriptEntryValue
deriving DecidableEq, Repr

/-- The `scripts` section: a mapping from script name to raw command,
itself possibly absent from the `package.json`. -/
structure PackageJson where
  scripts : Option (List (String × ScriptEntryValue))
deriving DecidableEq, Repr

/-- `RushConfigurationProject`: the fields of the project object that the
inspected code reads (`packageName` and `packageJson.scripts`). -/
structure RushConfigurationProject where
  packageName : String
  packageJson : PackageJson
deriving DecidableEq, Repr

/-- `IPhase`: the fields of the phase object that the inspected code
reads.  `associatedParameters` is the set of custom-parameter identities
associated with the phase (a JS `Set` of object identities, modelled as a
list of numeric identities with membership via `contains`). -/
structure IPhase where
  name : String
  ignoreMissingScript : Bool
  isSynthetic : Bool
  associatedParameters : List Nat
deriving DecidableEq, Repr

/-- `IRegisteredCustomParameter`: `parameter` is the identity used for the
`associatedParameters.has(parameter)` membership test, and
`tsCommandLineParameter` is modelled by the list of argument tokens its
`appendToArgList` appends (modelled from the spec: a custom parameter
"knows ... how to render itself into an argument list" and
`appendToArgList(outputList)` "appends zero or more rendered argument
tokens"; the parameter class itself is outside the inspected sources). -/
structure IRegisteredCustomParameter where
  parameter : Nat
  tsCommandLineParameter : List String
deriving DecidableEq, Repr

/-- `IShellOperationRunnerFactoryOptions`: collaborators the factory
forwards are opaque identifiers. -/
structure IShellOperationRunnerFactoryOptions where
  rushConfiguration : Nat
  buildCacheConfiguration : Option Nat
  commandLineConfiguration : Nat
  isIncrementalBuildAllowed : Bool
  customParameters : List IRegisteredCustomParameter
  projectChangeAnalyzer : Nat
deriving DecidableEq, Repr

/-- `IOperationOptions`: the `{ phase, project }` argument of
`createOperationRunner`. -/
structure IOperationOptions where
  phase : IPhase
  project : RushConfigurationProject
deriving DecidableEq, Repr

/-- Modelled from the spec: the operation-status enumeration (the
`OperationStatus` module is outside the inspected sources; the spec lists
Ready, Executing, Success, Failure, FromCache, Skipped, Blocked).  The
inspected code uses only `FromCache`. -/
inductive OperationStatus where
  | Ready : OperationStatus
  | Executing : OperationStatus
  | Success : OperationStatus
  | Failure : OperationStatus
  | FromCache : OperationStatus
  | Skipped : OperationStatus
  | Blocked : OperationStatus
deriving DecidableEq, Repr

/-- The options record passed to the `ShellOperationRunner` constructor at
the call site in `createOperationRunner`. -/
structure IShellOperationRunnerOptions where
  rushProject : RushConfigurationProject
  displayName : String
  rushConfiguration : Nat
  buildCacheConfiguration : Option Nat
  commandLineConfiguration : Nat
  commandToRun : String
  isIncrementalBuildAllowed : Bool
  projectChangeAnalyzer : Nat
  phase : IPhase
deriving DecidableEq, Repr

/-- `IOperationRunner`, restricted to the two variants the factory
constructs: a shell runner (carrying the options record passed to its
constructor) and `NullOperationRunner` (carrying the `name`, `result` and
`silent` fields passed to its constructor). -/
inductive IOperationRunner where
  | shell : IShellOperationRunnerOptions → IOperationRunner
  | null : String → OperationStatus → Bool → IOperationRunner
deriving DecidableEq, Repr

/-- The state of a `ShellOperationRunnerFactory` instance: the immutable
`_options` and the `_customParametersByPhase` memoization map (an
association list keyed by the phase). -/
structure ShellOperationRunnerFactory where
  options : IShellOperationRunnerFactoryOptions
  customParametersByPhase : List (IPhase × List String)
deriving DecidableEq, Repr

/-- Modelled from the spec: `RushConstants.phaseNamePrefix`, the "fixed
well-known prefix" stripped from a phase's name for display (the
`RushConstants` module is outside the inspected sources; rush phase names
carry the fixed marker `_phase:`). -/
def phaseNamePfx : String := "_phase:"

/-- Modelled from the spec: `convertSlashesForWindows` (defined in the
`ShellOperationRunner` module, outside the inspected sources): "forward
slashes in the resolved command line must be rewritten to the host's
native path separator". -/
def convertSlashesForWindows (command : String) : String :=
  String.mk (command.data.map fun c => if c = '/' then '\\' else c)

/-- JS `Map.get` on the memoization map: first entry whose key equals the
phase. -/
def cacheLookup (phase : IPhase) : List (IPhase × List String) → Option (List String)
  | [] => none
  | (p, vs) :: rest => if p = phase then some vs else cacheLookup phase rest

/-- JS property lookup `scripts[commandToRun]`: first entry whose key
equals the name; `none` when the key is absent. -/
def scriptsLookup (name : String) : List (String × ScriptEntryValue) → Option ScriptEntryValue
  | [] => none
  | (k, v) :: rest => if k = name then some v else scriptsLookup name rest

/-- `scripts?.[commandToRun]` — the raw value found in the project's
script mapping, or `none` when the `scripts` section or the key is
absent. -/
def rawScriptValue (rushProject : RushConfigurationProject) (commandToRun : String) :
    Option ScriptEntryValue :=
  match rushProject.packageJson.scripts with
  | none => none
  | some scripts => scriptsLookup commandToRun scripts

/-- JS truthiness of a `string | undefined` value (`undefined` and the
empty string are falsy). -/
def strOptTruthy : Option String → Bool
  | none => false
  | some s => !(s = "")

/-- JS `x || ''` on a `string | undefined` value. -/
def jsOrEmptyString : Option String → String
  | none => ""
  | some s => if s = "" then "" else s

/-- The error message of the `throw` in `createOperationRunner`. -/
def missingScriptMessage (project : RushConfigurationProject) (phase : IPhase) : String :=
  "The project \x27" ++ project.packageName ++ "\x27 does not define a \x27" ++
    phase.name ++ "\x27 command in the \x27scripts\x27 section of its package.json"

/-- `ShellOperationRunnerFactory._getScriptToRun`.  Returns `none` when
the raw command is `undefined` or `null`, the empty string when the raw
command is falsy (empty), and otherwise the raw command concatenated with
the space-joined custom parameter values, slash-converted when
`process.platform === 'win32'`. -/
def _getScriptToRun (platform : String) (rushProject : RushConfigurationProject)
    (commandToRun : String) (customParameterValues : List String) : Option String :=
  match rawScriptValue rushProject commandToRun with
  | none => none
  | some ScriptEntryValue.nullValue => none
  | some (ScriptEntryValue.script rawCommand) =>
    if rawCommand = "" then some ""
    else
      some (if platform = "win32"
        then convertSlashesForWindows
          (rawCommand ++ " " ++ String.intercalate " " customParameterValues)
        else rawCommand ++ " " ++ String.intercalate " " customParameterValues)

/-- `ShellOperationRunnerFactory._getDisplayName`: the project name for a
synthetic phase, otherwise the project name followed by the phase name
with its first `phaseNamePfx.length` characters removed (JS
`phase.name.slice(RushConstants.phaseNamePrefix.length)`). -/
def _getDisplayName (phase : IPhase) (project : RushConfigurationProject) : String :=
  if phase.isSynthetic then
    project.packageName
  else
    project.packageName ++ " (" ++ phase.name.drop phaseNamePfx.length ++ ")"

/-- The loop body of `_getCustomParameterValuesForPhase`: walks the
registered custom parameters, appending each associated parameter's
rendered tokens, and also counts how many `appendToArgList` invocations
were made (the call-count probe of the spec's testable property). -/
def appendAssociatedParameters (phase : IPhase) :
    List IRegisteredCustomParameter → List String → List String × Nat
  | [], acc => (acc, 0)
  | p :: rest, acc =>
    if phase.associatedParameters.contains p.parameter then
      let r := appendAssociatedParameters phase rest (acc ++ p.tsCommandLineParameter)
      (r.1, r.2 + 1)
    else
      appendAssociatedParameters phase rest acc

/-- `ShellOperationRunnerFactory._getCustomParameterValuesForPhase`.
Returns the argument list, the updated factory state, and the number of
`appendToArgList` invocations performed by this call (0 on a cache
hit). -/
def _getCustomParameterValuesForPhase (factory : ShellOperationRunnerFactory)
    (phase : IPhase) : List String × ShellOperationRunnerFactory × Nat :=
  match cacheLookup phase factory.customParametersByPhase with
  | some customParameterValues => (customParameterValues, factory, 0)
  | none =>
    let r := appendAssociatedParameters phase factory.options.customParameters []
    (r.1,
      { factory with customParametersByPhase :=
          (phase, r.1) :: factory.customParametersByPhase },
      r.2)

/-- `ShellOperationRunnerFactory.createOperationRunner`.  The thrown
configuration error becomes `Except.error`; the updated factory state is
returned alongside (the cache mutation performed by
`_getCustomParameterValuesForPhase` happens before the `throw`, exactly as
in the source). -/
def createOperationRunner (factory : ShellOperationRunnerFactory) (platform : String)
    (options : IOperationOptions) :
    Except String IOperationRunner × ShellOperationRunnerFactory :=
  let phase := options.phase
  let project := options.project
  let factoryOptions := factory.options
  let paramStep := _getCustomParameterValuesForPhase factory phase
  let customParameterValues := paramStep.1
  let factoryAfter := paramStep.2.1
  let commandToRun : Option String :=
    _getScriptToRun platform project phase.name customParameterValues
  if commandToRun.isNone && !phase.ignoreMissingScript then
    (Except.error (missingScriptMessage project phase), factoryAfter)
  else
    let displayName := _getDisplayName phase project
    let runner : IOperationRunner :=
      if strOptTruthy commandToRun then
        IOperationRunner.shell
          { rushProject := project
            displayName := displayName
            rushConfiguration := factoryOptions.rushConfiguration
            buildCacheConfiguration := factoryOptions.buildCacheConfiguration
            commandLineConfiguration := factoryOptions.commandLineConfiguration
            commandToRun := jsOrEmptyString commandToRun
            isIncrementalBuildAllowed := factoryOptions.isIncrementalBuildAllowed
            projectChangeAnalyzer := factoryOptions.projectChangeAnalyzer
            phase := phase }
      else
        IOperationRunner.null displayName OperationStatus.FromCache false
    (Except.ok runner, factoryAfter)

/-- Projection used in claim statements: the command line of a shell
runner, when the result is one. -/
def shellCommandOf : Except String IOperationRunner → Option String
  | Except.ok (IOperationRunner.shell o) => some o.commandToRun
  | _ => none

/-- Specification-side count of the custom parameters associated with a
phase: one `appendToArgList` invocation is expected per associated
registered parameter. -/
def countAssociated (phase : IPhase) (ps : List IRegisteredCustomParameter) : Nat :=
  (ps.filter fun p => phase.associatedParameters.contains p.parameter).length

/-! Concrete fixtures used by witnesses and counterexamples: the spec's
end-to-end scenarios (`alpha` / `build: "tsc"`, `beta` / `test: ""`,
`gamma` with no `lint` entry). -/

def alphaProject : RushConfigurationProject :=
  { packageName := "alpha"
    packageJson := { scripts := some [("_phase:build", ScriptEntryValue.script "tsc")] } }

def buildPhase : IPhase :=
  { name := "_phase:build", ignoreMissingScript := false, isSynthetic := false
    associatedParameters := [] }

def emptyFactoryOptions : IShellOperationRunnerFactoryOptions :=
  { rushConfiguration := 0, buildCacheConfiguration := none
    commandLineConfiguration := 0, isIncrementalBuildAllowed := false
    customParameters := [], projectChangeAnalyzer := 0 }

def factoryAlpha : ShellOperationRunnerFactory :=
  { options := emptyFactoryOptions, customParametersByPhase := [] }

def alphaOperationOptions : IOperationOptions :=
  { phase := buildPhase, project := alphaProject }

/-- The options record actually passed to the shell runner in the `alpha`
scenario (command line carries the trailing space produced by the
template-literal concatenation). -/
def alphaShellOptions : IShellOperationRunnerOptions :=
  { rushProject := alphaProject, displayName := "alpha (build)"
    rushConfiguration := 0, buildCacheConfiguration := none
    commandLineConfiguration := 0, commandToRun := "tsc "
    isIncrementalBuildAllowed := false, projectChangeAnalyzer := 0
    phase := buildPhase }

def betaProject : RushConfigurationProject :=
  { packageName := "beta"
    packageJson := { scripts := some [("_phase:test", ScriptEntryValue.script "")] } }

def testPhase : IPhase :=
  { name := "_phase:test", ignoreMissingScript := false, isSynthetic := false
    associatedParameters := [] }

def betaOperationOptions : IOperationOptions :=
  { phase := testPhase, project := betaProject }

def gammaProject : RushConfigurationProject :=
  { packageName := "gamma", packageJson := { scripts := some [] } }

def lintPhaseIgnore : IPhase :=
  { name := "_phase:lint", ignoreMissingScript := true, isSynthetic := false
    associatedParameters := [] }

def lintPhaseStrict : IPhase :=
  { name := "_phase:lint", ignoreMissingScript := false, isSynthetic := false
    associatedParameters := [] }

def gammaIgnoreOptions : IOperationOptions :=
  { phase := lintPhaseIgnore, project := gammaProject }

def gammaStrictOptions : IOperationOptions :=
  { phase := lintPhaseStrict, project := gammaProject }

def paramFactoryOptions : IShellOperationRunnerFactoryOptions :=
  { emptyFactoryOptions with
      customParameters :=
        [{ parameter := 1, tsCommandLineParameter := ["--verbose"] },
          { parameter := 2, tsCommandLineParameter := ["--flag", "x"] }] }

def factoryParams : ShellOperationRunnerFactory :=
  { options := paramFactoryOptions, customParametersByPhase := [] }

def paramPhase : IPhase :=
  { name := "_phase:build", ignoreMissingScript := false, isSynthetic := false
    associatedParameters := [1] }

def syntheticPhase : IPhase :=
  { name := "_phase:build", ignoreMissingScript := true, isSynthetic := true
    associatedParameters := [] }

/-- A non-synthetic phase whose name does not start with the well-known
phase-name marker (and is shorter than it). -/
def oddPhase : IPhase :=
  { name := "build", ignoreMissingScript := false, isSynthetic := false
    associatedParameters := [] }

def slashProject : RushConfigurationProject :=
  { packageName := "delta"
    packageJson :=
      { scripts := some [("_phase:build", ScriptEntryValue.script "scripts/run.sh")] } }

/-! Helper lemmas shared by the claim theorems. -/

/-- `_getScriptToRun` returns `none` exactly when the raw script value is
absent or explicitly null. -/
theorem scriptToRun_eq_none_iff (platform : String)
    (rushProject : RushConfigurationProject) (commandToRun : String)
    (customParameterValues : List String) :
    _getScriptToRun platform rushProject commandToRun customParameterValues = none ↔
      (rawScriptValue rushProject commandToRun = none ∨
        rawScriptValue rushProject commandToRun = some ScriptEntryValue.nullValue) := by
  unfold _getScriptToRun
  cases h : rawScriptValue rushProject commandToRun with
  | none => simp
  | some v =>
    cases v with
    | nullValue => simp
    | script rawCommand =>
      by_cases hraw : rawCommand = "" <;> simp [hraw]

/-- `_getScriptToRun` on a present, non-empty raw script. -/
theorem scriptToRun_of_script (platform : String)
    (rushProject : RushConfigurationProject) (commandToRun : String)
    (customParameterValues : List String) (rawCommand : String)
    (h : rawScriptValue rushProject commandToRun =
      some (ScriptEntryValue.script rawCommand))
    (hne : rawCommand ≠ "") :
    _getScriptToRun platform rushProject commandToRun customParameterValues =
      some (if platform = "win32"
        then convertSlashesForWindows
          (rawCommand ++ " " ++ String.intercalate " " customParameterValues)
        else rawCommand ++ " " ++ String.intercalate " " customParameterValues) := by
  simp [_getScriptToRun, h, hne]

/-- `_getScriptToRun` on a present but empty raw script. -/
theorem scriptToRun_of_empty (platform : String)
    (rushProject : RushConfigurationProject) (commandToRun : String)
    (customParameterValues : List String)
    (h : rawScriptValue rushProject commandToRun =
      some (ScriptEntryValue.script "")) :
    _getScriptToRun platform rushProject commandToRun customParameterValues =
      some "" := by
  simp [_getScriptToRun, h]

/-- A command line of the form `raw ++ " " ++ joined` is never empty. -/
theorem string_append_space_ne_empty (a b : String) : a ++ " " ++ b ≠ "" := by
  intro h
  have h2 := congrArg String.data h
  rw [String.data_append, String.data_append] at h2
  have hsp : (" " : String).data = [' '] := rfl
  have hemp : ("" : String).data = [] := rfl
  rw [hsp, hemp] at h2
  simp at h2

/-- Slash conversion sends only the empty string to the empty string. -/
theorem convertSlashes_eq_empty_iff (s : String) :
    convertSlashesForWindows s = "" ↔ s = "" := by
  constructor
  · intro h
    have h2 := congrArg String.data h
    have h3 : s.data.map (fun c => if c = '/' then '\\' else c) = [] := h2
    have h4 : s.data = [] := List.map_eq_nil_iff.mp h3
    exact String.ext (by rw [h4])
  · intro h
    subst h
    rfl

/-- The resolved command line of a non-empty script is non-empty on every
platform. -/
theorem resolved_command_ne_empty (platform : String) (rawCommand : String)
    (customParameterValues : List String) :
    (if platform = "win32"
      then convertSlashesForWindows
        (rawCommand ++ " " ++ String.intercalate " " customParameterValues)
      else rawCommand ++ " " ++ String.intercalate " " customParameterValues) ≠ "" := by
  split
  · intro h
    exact string_append_space_ne_empty _ _ ((convertSlashes_eq_empty_iff _).mp h)
  · exact string_append_space_ne_empty _ _

/-- Dropping the length of the first summand of a string append yields the
second summand. -/
theorem string_drop_length_append (a b : String) : (a ++ b).drop a.length = b := by
  apply String.ext
  rw [String.data_drop, String.data_append]
  exact List.drop_left a.data b.data

/-- The invocation count of the custom-parameter loop equals the number of
registered parameters associated with the phase, independently of the
accumulator. -/
theorem appendAssociatedParameters_count (phase : IPhase)
    (ps : List IRegisteredCustomParameter) (acc : List String) :
    (appendAssociatedParameters phase ps acc).2 = countAssociated phase ps := by
  induction ps generalizing acc with
  | nil => simp [appendAssociatedParameters, countAssociated]
  | cons p rest ih =>
    by_cases hp : p.parameter ∈ phase.associatedParameters <;>
      simp [appendAssociatedParameters, countAssociated, List.filter_cons, hp, ih]

/-- Both branches of `createOperationRunner` return the factory state
produced by `_getCustomParameterValuesForPhase`. -/
theorem createOperationRunner_snd (factory : ShellOperationRunnerFactory)
    (platform : String) (options : IOperationOptions) :
    (createOperationRunner factory platform options).2 =
      (_getCustomParameterValuesForPhase factory options.phase).2.1 := by
  simp only [createOperationRunner]
  split <;> rfl

/-! Claim theorems. -/

/-- Claim C1: `createOperationRunner` raises the missing-required-script
configuration error (the synchronously thrown error naming the project and
the phase) if and only if the project's script mapping has no entry for
the phase's name (absent or explicitly null) and the phase's
`ignoreMissingScript` flag is false; when the entry is absent/null and
`ignoreMissingScript` is true, it instead returns a no-op runner whose
fixed result status is `FromCache` and which is marked non-silent. -/
theorem createOperationRunner_missingScript_cases
    (factory : ShellOperationRunnerFactory) (platform : String)
    (options : IOperationOptions) :
    (((createOperationRunner factory platform options).1 =
        Except.error (missingScriptMessage options.project options.phase)) ↔
      ((rawScriptValue options.project options.phase.name = none ∨
          rawScriptValue options.project options.phase.name =
            some ScriptEntryValue.nullValue) ∧
        options.phase.ignoreMissingScript = false)) ∧
    ((rawScriptValue options.project options.phase.name = none ∨
        rawScriptValue options.project options.phase.name =
          some ScriptEntryValue.nullValue) →
      options.phase.ignoreMissingScript = true →
      (createOperationRunner factory platform options).1 =
        Except.ok (IOperationRunner.null
          (_getDisplayName options.phase options.project)
          OperationStatus.FromCache false)) := by
  have hkey := scriptToRun_eq_none_iff platform options.project options.phase.name
    (_getCustomParameterValuesForPhase factory options.phase).1
  constructor
  · constructor
    · intro herr
      cases hc : _getScriptToRun platform options.project options.phase.name
          (_getCustomParameterValuesForPhase factory options.phase).1 with
      | some s =>
        exfalso
        simp [createOperationRunner, hc] at herr
      | none =>
        by_cases hi : options.phase.ignoreMissingScript = true
        · exfalso
          simp [createOperationRunner, hc, hi] at herr
        · exact ⟨hkey.mp hc, by simpa using hi⟩
    · rintro ⟨habs, hi⟩
      have hc : _getScriptToRun platform options.project options.phase.name
          (_getCustomParameterValuesForPhase factory options.phase).1 = none :=
        hkey.mpr habs
      simp [createOperationRunner, hc, hi]
  · intro habs hi
    have hc : _getScriptToRun platform options.project options.phase.name
        (_getCustomParameterValuesForPhase factory options.phase).1 = none :=
      hkey.mpr habs
    simp [createOperationRunner, hc, hi, strOptTruthy]

/-- Witness for C1: project `gamma` has no `lint` entry; with
`ignoreMissingScript = false` the error is raised, with
`ignoreMissingScript = true` a non-silent `FromCache` no-op runner is
returned. -/
theorem createOperationRunner_missingScript_cases_witness :
    (createOperationRunner factoryAlpha "linux" gammaStrictOptions).1 =
      Except.error (missingScriptMessage gammaProject lintPhaseStrict) ∧
    (createOperationRunner factoryAlpha "linux" gammaIgnoreOptions).1 =
      Except.ok (IOperationRunner.null (_getDisplayName lintPhaseIgnore gammaProject)
        OperationStatus.FromCache false) := by
  refine ⟨?_, ?_⟩
  · exact ((createOperationRunner_missingScript_cases factoryAlpha "linux"
      gammaStrictOptions).1).mpr ⟨Or.inl (by decide), rfl⟩
  · exact (createOperationRunner_missingScript_cases factoryAlpha "linux"
      gammaIgnoreOptions).2 (Or.inl (by decide)) rfl

/-- Counterexample to claim C2 as stated: in the `alpha` scenario
(`build: "tsc"`, no custom parameters) the shell runner's command line is
`"tsc "` — the template-literal concatenation always inserts one space
before the (here empty) joined parameter list — so it does not equal
exactly `"tsc"`.  The display-name half of the scenario does hold. -/
theorem alpha_shell_command_not_exactly_tsc :
    shellCommandOf (createOperationRunner factoryAlpha "linux" alphaOperationOptions).1 ≠
        some "tsc" ∧
    shellCommandOf (createOperationRunner factoryAlpha "linux" alphaOperationOptions).1 =
        some "tsc " ∧
    _getDisplayName buildPhase alphaProject = "alpha (build)" :=
  ⟨by decide, by decide, by decide⟩

/-- Claim C2 (amended): for a project whose script entry for the phase is
a non-empty string, on a non-Windows platform the shell runner's command
line equals the raw script, a single separating space, and the joined
custom-parameter argument list (so a trailing space remains when the
argument list is empty; on Windows the same string additionally undergoes
slash conversion). -/
theorem createOperationRunner_shell_command (factory : ShellOperationRunnerFactory)
    (platform : String) (options : IOperationOptions) (rawCommand : String)
    (h : rawScriptValue options.project options.phase.name =
      some (ScriptEntryValue.script rawCommand))
    (hne : rawCommand ≠ "") (hplat : platform ≠ "win32") :
    shellCommandOf (createOperationRunner factory platform options).1 =
      some (rawCommand ++ " " ++ String.intercalate " "
        (_getCustomParameterValuesForPhase factory options.phase).1) := by
  have hc := scriptToRun_of_script platform options.project options.phase.name
    (_getCustomParameterValuesForPhase factory options.phase).1 rawCommand h hne
  rw [if_neg hplat] at hc
  have hs := string_append_space_ne_empty rawCommand
    (String.intercalate " " (_getCustomParameterValuesForPhase factory options.phase).1)
  simp [createOperationRunner, hc, strOptTruthy, jsOrEmptyString, shellCommandOf, hs]

/-- Witness for C2 (amended): the `alpha` scenario yields the command
`"tsc "`. -/
theorem createOperationRunner_shell_command_witness :
    shellCommandOf (createOperationRunner factoryAlpha "linux" alphaOperationOptions).1 =
      some "tsc " := by
  have h := createOperationRunner_shell_command factoryAlpha "linux" alphaOperationOptions
    "tsc" (by decide) (by decide) (by decide)
  exact h.trans (by decide)

/-- Claim C3: a script entry that is present but empty yields a non-silent
`FromCache` no-op runner and no error, regardless of the phase's
`ignoreMissingScript` flag (no hypothesis about that flag is used). -/
theorem createOperationRunner_empty_script (factory : ShellOperationRunnerFactory)
    (platform : String) (options : IOperationOptions)
    (h : rawScriptValue options.project options.phase.name =
      some (ScriptEntryValue.script "")) :
    (createOperationRunner factory platform options).1 =
      Except.ok (IOperationRunner.null (_getDisplayName options.phase options.project)
        OperationStatus.FromCache false) := by
  have hc := scriptToRun_of_empty platform options.project options.phase.name
    (_getCustomParameterValuesForPhase factory options.phase).1 h
  simp [createOperationRunner, hc, strOptTruthy]

/-- Witness for C3: project `beta` defines `test: ""` and the phase does
not ignore missing scripts, yet a `FromCache` no-op runner is returned. -/
theorem createOperationRunner_empty_script_witness :
    (createOperationRunner factoryAlpha "linux" betaOperationOptions).1 =
      Except.ok (IOperationRunner.null "beta (test)" OperationStatus.FromCache false) := by
  have h := createOperationRunner_empty_script factoryAlpha "linux" betaOperationOptions
    (by decide)
  exact h.trans rfl

/-- Claim C4: the custom-parameter argument list is memoized by phase
alone (the function does not even take a project).  The first call for a
phase not yet in the cache performs one `appendToArgList` invocation per
associated registered parameter; any subsequent call for the same phase
returns the identical stored list, leaves the state unchanged, and
performs no further `appendToArgList` invocation. -/
theorem customParameterValues_memoized (factory : ShellOperationRunnerFactory)
    (phase : IPhase) :
    ((_getCustomParameterValuesForPhase
        (_getCustomParameterValuesForPhase factory phase).2.1 phase).1 =
      (_getCustomParameterValuesForPhase factory phase).1) ∧
    ((_getCustomParameterValuesForPhase
        (_getCustomParameterValuesForPhase factory phase).2.1 phase).2.1 =
      (_getCustomParameterValuesForPhase factory phase).2.1) ∧
    ((_getCustomParameterValuesForPhase
        (_getCustomParameterValuesForPhase factory phase).2.1 phase).2.2 = 0) ∧
    (cacheLookup phase factory.customParametersByPhase = none →
      (_getCustomParameterValuesForPhase factory phase).2.2 =
        countAssociated phase factory.options.customParameters) := by
  cases h : cacheLookup phase factory.customParametersByPhase with
  | some vs =>
    simp [_getCustomParameterValuesForPhase, h]
  | none =>
    simp [_getCustomParameterValuesForPhase, h, cacheLookup,
      appendAssociatedParameters_count]

/-- Witness for C4: a factory with two registered custom parameters, one
associated with the phase: the first call makes exactly one
`appendToArgList` invocation, the second call returns the identical list
with zero invocations. -/
theorem customParameterValues_memoized_witness :
    ((_getCustomParameterValuesForPhase factoryParams paramPhase).2.2 =
      countAssociated paramPhase factoryParams.options.customParameters) ∧
    ((_getCustomParameterValuesForPhase
        (_getCustomParameterValuesForPhase factoryParams paramPhase).2.1 paramPhase).1 =
      (_getCustomParameterValuesForPhase factoryParams paramPhase).1) ∧
    ((_getCustomParameterValuesForPhase
        (_getCustomParameterValuesForPhase factoryParams paramPhase).2.1 paramPhase).2.2 = 0) ∧
    countAssociated paramPhase factoryParams.options.customParameters = 1 ∧
    (_getCustomParameterValuesForPhase factoryParams paramPhase).1 = ["--verbose"] := by
  have h := customParameterValues_memoized factoryParams paramPhase
  exact ⟨h.2.2.2 (by decide), h.1, h.2.2.1, by decide, by decide⟩

/-- Claim C5: the display name is the project's package name when the
phase is synthetic; otherwise, for a phase whose name is the well-known
phase-name marker followed by `rest`, it is
`"<packageName> (<rest>)"`. -/
theorem displayName_spec (phase : IPhase) (project : RushConfigurationProject) :
    (phase.isSynthetic = true → _getDisplayName phase project = project.packageName) ∧
    (phase.isSynthetic = false → ∀ rest : String, phase.name = phaseNamePfx ++ rest →
      _getDisplayName phase project = project.packageName ++ " (" ++ rest ++ ")") := by
  constructor
  · intro h
    simp [_getDisplayName, h]
  · intro h rest hname
    simp [_getDisplayName, h, hname, string_drop_length_append]

/-- Witness for C5: a synthetic phase displays as `"alpha"`, and the
declared build phase displays as `"alpha (build)"`. -/
theorem displayName_spec_witness :
    _getDisplayName syntheticPhase alphaProject = "alpha" ∧
    _getDisplayName buildPhase alphaProject = "alpha (build)" := by
  have h1 := (displayName_spec syntheticPhase alphaProject).1 rfl
  have h2 := (displayName_spec buildPhase alphaProject).2 rfl "build" (by decide)
  exact ⟨h1.trans (by decide), h2.trans (by decide)⟩

/-- Claim C6: for a present, non-empty script, the resolved command line
undergoes slash conversion exactly when the execution target is
`win32`; on any other platform it is returned unchanged. -/
theorem slashConversion_iff_win32 (platform : String)
    (rushProject : RushConfigurationProject) (commandToRun : String)
    (customParameterValues : List String) (rawCommand : String)
    (h : rawScriptValue rushProject commandToRun =
      some (ScriptEntryValue.script rawCommand))
    (hne : rawCommand ≠ "") :
    (_getScriptToRun "win32" rushProject commandToRun customParameterValues =
      some (convertSlashesForWindows
        (rawCommand ++ " " ++ String.intercalate " " customParameterValues))) ∧
    (platform ≠ "win32" →
      _getScriptToRun platform rushProject commandToRun customParameterValues =
        some (rawCommand ++ " " ++ String.intercalate " " customParameterValues)) := by
  constructor
  · have hw := scriptToRun_of_script "win32" rushProject commandToRun
      customParameterValues rawCommand h hne
    simpa using hw
  · intro hplat
    have hp := scriptToRun_of_script platform rushProject commandToRun
      customParameterValues rawCommand h hne
    rwa [if_neg hplat] at hp

/-- Witness for C6: the script `scripts/run.sh` is slash-converted on
`win32` (to `scripts\run.sh `, trailing space included) and returned
unchanged on `linux`. -/
theorem slashConversion_iff_win32_witness :
    (_getScriptToRun "win32" slashProject "_phase:build" [] =
      some (convertSlashesForWindows
        ("scripts/run.sh" ++ " " ++ String.intercalate " " []))) ∧
    (_getScriptToRun "linux" slashProject "_phase:build" [] =
      some ("scripts/run.sh" ++ " " ++ String.intercalate " " [])) ∧
    convertSlashesForWindows ("scripts/run.sh" ++ " " ++ String.intercalate " " []) =
      "scripts\\run.sh " := by
  have h := slashConversion_iff_win32 "linux" slashProject "_phase:build" []
    "scripts/run.sh" (by decide) (by decide)
  exact ⟨h.1, h.2 (by decide), by decide⟩

/-- Claim C7: `_getScriptToRun` preserves the three-way distinction of the
script mapping exactly: it returns `none` iff the entry is absent or
explicitly null, `some ""` iff the entry is present and empty, and a
(necessarily non-empty) resolved command line iff the entry is present and
non-empty. -/
theorem scriptToRun_three_way (platform : String)
    (rushProject : RushConfigurationProject) (commandToRun : String)
    (customParameterValues : List String) :
    (_getScriptToRun platform rushProject commandToRun customParameterValues = none ↔
      (rawScriptValue rushProject commandToRun = none ∨
        rawScriptValue rushProject commandToRun = some ScriptEntryValue.nullValue)) ∧
    (_getScriptToRun platform rushProject commandToRun customParameterValues = some "" ↔
      rawScriptValue rushProject commandToRun = some (ScriptEntryValue.script "")) ∧
    (∀ rawCommand : String, rawCommand ≠ "" →
      rawScriptValue rushProject commandToRun = some (ScriptEntryValue.script rawCommand) →
      _getScriptToRun platform rushProject commandToRun customParameterValues =
        some (if platform = "win32"
          then convertSlashesForWindows
            (rawCommand ++ " " ++ String.intercalate " " customParameterValues)
          else rawCommand ++ " " ++ String.intercalate " " customParameterValues)) ∧
    ((∃ c, c ≠ "" ∧
        _getScriptToRun platform rushProject commandToRun customParameterValues = some c) ↔
      (∃ rawCommand, rawCommand ≠ "" ∧
        rawScriptValue rushProject commandToRun = some (ScriptEntryValue.script rawCommand))) := by
  refine ⟨scriptToRun_eq_none_iff platform rushProject commandToRun customParameterValues,
    ?_, ?_, ?_⟩
  · cases h : rawScriptValue rushProject commandToRun with
    | none => simp [_getScriptToRun, h]
    | some v =>
      cases v with
      | nullValue => simp [_getScriptToRun, h]
      | script rawCommand =>
        by_cases hraw : rawCommand = ""
        · subst hraw
          simp [scriptToRun_of_empty platform rushProject commandToRun
            customParameterValues h]
        · rw [scriptToRun_of_script platform rushProject commandToRun
            customParameterValues rawCommand h hraw]
          simp [hraw, resolved_command_ne_empty platform rawCommand customParameterValues]
  · intro rawCommand hne h
    exact scriptToRun_of_script platform rushProject commandToRun
      customParameterValues rawCommand h hne
  · constructor
    · rintro ⟨c, hc, hres⟩
      cases h : rawScriptValue rushProject commandToRun with
      | none =>
        rw [(scriptToRun_eq_none_iff platform rushProject commandToRun
          customParameterValues).mpr (Or.inl h)] at hres
        exact absurd hres (by simp)
      | some v =>
        cases v with
        | nullValue =>
          rw [(scriptToRun_eq_none_iff platform rushProject commandToRun
            customParameterValues).mpr (Or.inr h)] at hres
          exact absurd hres (by simp)
        | script rawCommand =>
          by_cases hraw : rawCommand = ""
          · subst hraw
            rw [scriptToRun_of_empty platform rushProject commandToRun
              customParameterValues h] at hres
            exact absurd (by simpa using hres.symm) hc
          · exact ⟨rawCommand, hraw, rfl⟩
    · rintro ⟨rawCommand, hne, h⟩
      exact ⟨_, resolved_command_ne_empty platform rawCommand customParameterValues,
        scriptToRun_of_script platform rushProject commandToRun
          customParameterValues rawCommand h hne⟩

/-- Witness for C7: the three outcomes on concrete projects — absent entry
(`gamma`), empty entry (`beta`), non-empty entry (`alpha`). -/
theorem scriptToRun_three_way_witness :
    _getScriptToRun "linux" gammaProject "_phase:lint" [] = none ∧
    _getScriptToRun "linux" betaProject "_phase:test" [] = some "" ∧
    _getScriptToRun "linux" alphaProject "_phase:build" [] = some "tsc " := by
  have h1 := (scriptToRun_three_way "linux" gammaProject "_phase:lint" []).1
  have h2 := (scriptToRun_three_way "linux" betaProject "_phase:test" []).2.1
  have h3 := (scriptToRun_three_way "linux" alphaProject "_phase:build" []).2.2.1
    "tsc" (by decide) (by decide)
  exact ⟨h1.mpr (Or.inl (by decide)), h2.mpr (by decide), h3.trans (by decide)⟩

/-- Claim C8: `createOperationRunner` — including on the error path —
changes no factory state other than possibly inserting one entry into the
per-phase memoization cache: the factory options are returned unchanged,
the cache either stays as it was or gains exactly the entry for the
requested phase, and whenever the result is the thrown error the cache
entry for the requested phase is populated in the resulting state.  (The
phase and project arguments are values in this embedding, so no mutation
of them is expressible at all.) -/
theorem createOperationRunner_frame (factory : ShellOperationRunnerFactory)
    (platform : String) (options : IOperationOptions) :
    ((createOperationRunner factory platform options).2.options = factory.options) ∧
    (((createOperationRunner factory platform options).2.customParametersByPhase =
        factory.customParametersByPhase) ∨
      (cacheLookup options.phase factory.customParametersByPhase = none ∧
        (createOperationRunner factory platform options).2.customParametersByPhase =
          (options.phase,
            (appendAssociatedParameters options.phase
              factory.options.customParameters []).1) ::
            factory.customParametersByPhase)) ∧
    (∀ e : String, (createOperationRunner factory platform options).1 = Except.error e →
      cacheLookup options.phase
          (createOperationRunner factory platform options).2.customParametersByPhase ≠
        none) := by
  have hsnd := createOperationRunner_snd factory platform options
  cases h : cacheLookup options.phase factory.customParametersByPhase with
  | some vs =>
    refine ⟨?_, Or.inl ?_, ?_⟩
    · rw [hsnd]
      simp [_getCustomParameterValuesForPhase, h]
    · rw [hsnd]
      simp [_getCustomParameterValuesForPhase, h]
    · intro e _
      rw [hsnd]
      simp [_getCustomParameterValuesForPhase, h]
  | none =>
    refine ⟨?_, Or.inr ⟨rfl, ?_⟩, ?_⟩
    · rw [hsnd]
      simp [_getCustomParameterValuesForPhase, h]
    · rw [hsnd]
      simp [_getCustomParameterValuesForPhase, h]
    · intro e _
      rw [hsnd]
      simp [_getCustomParameterValuesForPhase, h, cacheLookup]

/-- Witness for C8: on the error path of the `gamma`/strict-`lint`
scenario, the factory options are unchanged and the cache entry for the
phase is populated. -/
theorem createOperationRunner_frame_witness :
    (createOperationRunner factoryAlpha "linux" gammaStrictOptions).2.options =
        factoryAlpha.options ∧
    cacheLookup lintPhaseStrict
        (createOperationRunner factoryAlpha "linux"
          gammaStrictOptions).2.customParametersByPhase ≠
      none := by
  have h := createOperationRunner_frame factoryAlpha "linux" gammaStrictOptions
  exact ⟨h.1, h.2.2 (missingScriptMessage gammaProject lintPhaseStrict) rfl⟩

/-- Claim C9: whenever `createOperationRunner` returns a shell runner, the
command line it carries is non-empty, and it equals the `some`-value
resolved by `_getScriptToRun` — so the `commandToRun || ''` fallback to
the empty string is never what the shell runner receives. -/
theorem shellRunner_command_nonempty (factory : ShellOperationRunnerFactory)
    (platform : String) (options : IOperationOptions)
    (o : IShellOperationRunnerOptions)
    (h : (createOperationRunner factory platform options).1 =
      Except.ok (IOperationRunner.shell o)) :
    o.commandToRun ≠ "" ∧
    _getScriptToRun platform options.project options.phase.name
      (_getCustomParameterValuesForPhase factory options.phase).1 =
      some o.commandToRun := by
  cases hc : _getScriptToRun platform options.project options.phase.name
      (_getCustomParameterValuesForPhase factory options.phase).1 with
  | none =>
    exfalso
    by_cases hi : options.phase.ignoreMissingScript = true
    · simp [createOperationRunner, hc, hi, strOptTruthy] at h
    · have hi2 : options.phase.ignoreMissingScript = false := by simpa using hi
      simp [createOperationRunner, hc, hi2] at h
  | some s =>
    by_cases hs : s = ""
    · exfalso
      subst hs
      simp [createOperationRunner, hc, strOptTruthy] at h
    · simp [createOperationRunner, hc, strOptTruthy, jsOrEmptyString, hs] at h
      refine ⟨?_, ?_⟩
      · rw [← h]
        exact hs
      · rw [← h]

/-- Witness for C9: the `alpha` scenario produces a shell runner whose
command line `"tsc "` is non-empty and equals the resolved script. -/
theorem shellRunner_command_nonempty_witness :
    alphaShellOptions.commandToRun ≠ "" ∧
    _getScriptToRun "linux" alphaOperationOptions.project alphaOperationOptions.phase.name
      (_getCustomParameterValuesForPhase factoryAlpha alphaOperationOptions.phase).1 =
      some alphaShellOptions.commandToRun :=
  shellRunner_command_nonempty factoryAlpha "linux" alphaOperationOptions
    alphaShellOptions rfl

/-- Claim C10: for every non-synthetic phase the display-name computation
drops the first `phaseNamePfx.length` characters of the phase's name
positionally, with no check that the name actually starts with the
marker; in particular, for a non-empty name the displayed phase portion is
never the full name. -/
theorem displayName_positional_strip (phase : IPhase)
    (project : RushConfigurationProject) (h : phase.isSynthetic = false) :
    _getDisplayName phase project =
      project.packageName ++ " (" ++ phase.name.drop phaseNamePfx.length ++ ")" ∧
    (phase.name ≠ "" → phase.name.drop phaseNamePfx.length ≠ phase.name) := by
  constructor
  · simp [_getDisplayName, h]
  · intro hne heq
    have hdata : phase.name.data.drop phaseNamePfx.length = phase.name.data := by
      have h2 := congrArg String.data heq
      simpa using h2
    have hlen := congrArg List.length hdata
    rw [List.length_drop] at hlen
    have hnil : phase.name.data ≠ [] := by
      intro hd
      exact hne (String.ext (by rw [hd]))
    have hpos : 0 < phase.name.data.length := List.length_pos.mpr hnil
    have hpfx : phaseNamePfx.length = 7 := rfl
    rw [hpfx] at hlen
    omega

/-- Witness for C10: the non-synthetic phase named `"build"` (which does
not start with the marker and is shorter than it) displays as
`"alpha ()"`: the first seven characters are dropped positionally, leaving
the empty portion rather than the full name. -/
theorem displayName_positional_strip_witness :
    _getDisplayName oddPhase alphaProject =
      alphaProject.packageName ++ " (" ++ oddPhase.name.drop phaseNamePfx.length ++ ")" ∧
    oddPhase.name.drop phaseNamePfx.length ≠ oddPhase.name ∧
    _getDisplayName oddPhase alphaProject = "alpha ()" := by
  have h := displayName_positional_strip oddPhase alphaProject rfl
  exact ⟨h.1, h.2 (by decide), by decide⟩
